import Mathlib

/-!
# ProxyHub info server (`src/infoserv.go`)

A shallow embedding of the three telemetry handlers `infoHandle`, `statHandle`
and `rawStatHandle` together with the helpers they rely on.

Conventions of the embedding:

* Go `string` values are Lean `String`s; `uint64` counters are `Nat` with every
  addition reduced modulo `2^64`; `int64` epoch seconds are `Int` with the
  subtraction wrapped into the `int64` range.
* The operating system is a parameter `sys` giving, for a command name and its
  argument list, what `exec.Command(name, arg...).Output()` returns.
* `json.Unmarshal` is a parameter returning either the decoder's error text or
  the decoded `VnStatData`.
* An `http.ResponseWriter` is modelled by the `Response` that the handler
  leaves in it: status code, the headers set explicitly, and the body.
-/

namespace ProxyHub

/-! ## Data model (lines 25-81) -/

structure VnStatDate where
  Year : Int
  Month : Int
  Day : Int
deriving DecidableEq

structure VnStatTime where
  Hour : Int
  Minute : Int
deriving DecidableEq

structure VnStatTimeData where
  Date : VnStatDate
  Time : Option VnStatTime
  Timestamp : Int
deriving DecidableEq

structure TrafficStats where
  Rx : Nat
  Tx : Nat
deriving DecidableEq

structure DayStats where
  ID : Int
  Date : VnStatDate
  Timestamp : Int
  Rx : Nat
  Tx : Nat
deriving DecidableEq

structure VnStatTraffic where
  Total : TrafficStats
  Day : List DayStats
deriving DecidableEq

structure VnStatInterface where
  Name : String
  Alias : String
  Created : VnStatTimeData
  Updated : VnStatTimeData
  Traffic : VnStatTraffic
deriving DecidableEq

structure VnStatData where
  VnStatVersion : String
  JsonVersion : Int
  Interfaces : List VnStatInterface
deriving DecidableEq

structure Stat where
  DayRx : Nat
  DayTX : Nat
  Day7Rx : Nat
  Day7TX : Nat
  Day30Rx : Nat
  Day30TX : Nat
deriving DecidableEq

/-! ## Machine arithmetic -/

/-- Addition of two `uint64` values as Go performs it: the result wraps modulo `2^64`. -/
def addU64 (a b : Nat) : Nat := (a + b) % 2 ^ 64

/-- Subtraction of two `int64` values as Go performs it: the exact difference is
wrapped into `[-2^63, 2^63)`. -/
def subI64 (a b : Int) : Int := (a - b + 2 ^ 63) % 2 ^ 64 - 2 ^ 63

/-! ## External commands (lines 83-90) -/

/-- What `cmd.Output()` hands back: the captured standard output and the error
(`none` for `nil`). -/
structure CmdOutput where
  stdout : String
  err : Option String
deriving DecidableEq

/-- The environment: the outcome of running `exec.Command(name, arg...).Output()`. -/
abbrev System := String → List String → CmdOutput

/-- Embedding of `execCommand` (lines 83-90): the standard output, or the empty string
when running the command reported an error. -/
def execCommand (sys : System) (name : String) (arg : List String) : String :=
  match (sys name arg).err with
  | some _ => ""
  | none => (sys name arg).stdout

/-! ## HTTP responses -/

/-- The state a handler leaves in its `http.ResponseWriter`. -/
structure Response where
  status : Nat
  header : List (String × String)
  body : String
deriving DecidableEq

def StatusOK : Nat := 200

def StatusBadRequest : Nat := 400

/-- Embedding of `http.Error(w, error, code)` from `net/http`: it sets the two plain-text
headers, writes the status code and prints the message with `fmt.Fprintln`, that is,
followed by a line feed. -/
def httpError (error : String) (code : Nat) : Response :=
  { status := code
    header := [("Content-Type", "text/plain; charset=utf-8"),
               ("X-Content-Type-Options", "nosniff")]
    body := error ++ "\n" }

/-- Embedding of `json.Marshal(&result)` for a `Stat` (lines 74-81 give the field tags):
an object with the six tagged fields in declaration order, each an unsigned decimal. -/
def jsonMarshalStat (s : Stat) : String :=
  "\x7b\"dayRx\":" ++ toString s.DayRx ++ ",\"dayTx\":" ++ toString s.DayTX ++
  ",\"day7Rx\":" ++ toString s.Day7Rx ++ ",\"day7Tx\":" ++ toString s.Day7TX ++
  ",\"day30Rx\":" ++ toString s.Day30Rx ++ ",\"day30Tx\":" ++ toString s.Day30TX ++ "\x7d"

/-! ## `statHandle` (lines 109-152) -/

/-- One iteration of the `range` loop at lines 137-144, at index `i` on record `day`. -/
def statStep (result : Stat) (i : Nat) (day : DayStats) : Stat :=
  let result := { result with
    Day30Rx := addU64 result.Day30Rx day.Rx
    Day30TX := addU64 result.Day30TX day.Tx }
  if i < 7 then
    { result with
      Day7Rx := addU64 result.Day7Rx day.Rx
      Day7TX := addU64 result.Day7TX day.Tx }
  else result

/-- The `range` loop at lines 137-144, started at index `i`. -/
def statLoop : Nat → List DayStats → Stat → Stat
  | _, [], result => result
  | i, day :: rest, result => statLoop (i + 1) rest (statStep result i day)

/-- Lines 123 and 132-144 of `statHandle`, run on the slice `Day` as it stands after
`slices.Reverse`: a zeroed `Stat`, the first element copied into the day fields when
there is one, then the summation loop. -/
def statTotals (Day : List DayStats) : Stat :=
  let result : Stat := ⟨0, 0, 0, 0, 0, 0⟩
  let result :=
    match Day with
    | d :: _ => { result with DayRx := d.Rx, DayTX := d.Tx }
    | [] => result
  statLoop 0 Day result

/-- The success response of `statHandle` (lines 146-151). -/
def statOK (result : Stat) : Response :=
  { status := StatusOK
    header := [("Content-Type", "application/json")]
    body := jsonMarshalStat result }

/-- Embedding of `statHandle` (lines 109-152). -/
def statHandle (sys : System) (unmarshal : String → Except String VnStatData) : Response :=
  let exc := execCommand sys "vnstat --json d 30" []
  if exc = "" then httpError "error" StatusBadRequest
  else
    match unmarshal exc with
    | .error err => httpError err StatusBadRequest
    | .ok vnStat =>
      match vnStat.Interfaces with
      | [] => httpError "empty data" StatusBadRequest
      | iface :: _ => statOK (statTotals iface.Traffic.Day.reverse)

/-- The day list that `statHandle` finds in `vnStat.Interfaces[0].Traffic.Day` right after
decoding (before line 130), when the command output is non-empty, decodes, and has an
interface; `none` on the three error paths. -/
def deliveredDays (sys : System) (unmarshal : String → Except String VnStatData) :
    Option (List DayStats) :=
  let exc := execCommand sys "vnstat --json d 30" []
  if exc = "" then none
  else
    match unmarshal exc with
    | .error _ => none
    | .ok vnStat =>
      match vnStat.Interfaces with
      | [] => none
      | iface :: _ => some iface.Traffic.Day

/-! ## `infoHandle` (lines 17-18 and 92-107) -/

/-- Scanner behind `ReplaceAll` for a non-empty `old`: it walks the text left to right;
wherever `old` starts it emits `new` and skips the `old.length` matched characters (the
first argument counts those still to be skipped), so the instances replaced are the
leftmost non-overlapping ones. -/
def replaceAllAux (old new : List Char) : Nat → List Char → List Char
  | _, [] => []
  | skip + 1, _ :: cs => replaceAllAux old new skip cs
  | 0, c :: cs =>
    if old.isPrefixOf (c :: cs) then new ++ replaceAllAux old new (old.length - 1) cs
    else c :: replaceAllAux old new 0 cs

/-- Embedding of `strings.ReplaceAll(s, old, new)`: every non-overlapping instance of
`old` in `s` is replaced by `new`; an empty `old` matches before every character and at
the end of the text. -/
def ReplaceAll (s old new : String) : String :=
  if old = "" then ⟨new.data ++ s.data.flatMap fun c => c :: new.data⟩
  else ⟨replaceAllAux old.data new.data 0 s.data⟩

/-- The process-wide variables `tsLast` and `infoCache` (lines 17-18). -/
structure CacheState where
  tsLast : Int
  infoCache : String
deriving DecidableEq

/-- The initial value of the two variables at process start. -/
def CacheState.init : CacheState := ⟨0, ""⟩

/-- What one call of a handler that may run commands leaves behind: the cache variables,
the response, and the commands it ran through `execCommand`, in order. -/
structure Outcome where
  state : CacheState
  resp : Response
  calls : List (String × List String)
deriving DecidableEq

/-- The response left by a single `fmt.Fprint(w, text)` with no explicit status or header. -/
def printOK (text : String) : Response :=
  { status := StatusOK, header := [], body := text }

/-- The argument list given to `fastfetch` at line 100. -/
def fastfetchArgs : List String :=
  ["--pipe", "--structure",
   "separator:os:separator:host:kernel:uptime:packages:shell:de:wm:wmtheme:theme:icons:font:cpu:gpu:memory:disk:localip"]

/-- The five commands run at lines 100-104, in order. -/
def infoCommands : List (String × List String) :=
  [("fastfetch", fastfetchArgs), ("vnstat", []), ("vnstat", ["-h"]), ("vnstat", ["-hg"]),
   ("vnstat", ["-5"])]

/-- The value of `infoCache` after lines 99-104. -/
def infoText (sys : System) : String :=
  let infoCache := ""
  let infoCache := infoCache ++
    ReplaceAll (ReplaceAll (execCommand sys "fastfetch" fastfetchArgs) "\x1b[34C" "") "\x1b[31C" ""
  let infoCache := infoCache ++ execCommand sys "vnstat" []
  let infoCache := infoCache ++ execCommand sys "vnstat" ["-h"]
  let infoCache := infoCache ++ execCommand sys "vnstat" ["-hg"]
  let infoCache := infoCache ++ execCommand sys "vnstat" ["-5"]
  infoCache

/-- Embedding of `infoHandle` (lines 92-107), called with cache variables `st` at epoch
second `tsNow` (the value of `time.Now().Unix()`), on a system `sys`. -/
def infoHandle (st : CacheState) (tsNow : Int) (sys : System) : Outcome :=
  if subI64 tsNow st.tsLast ≤ 3 then
    { state := st, resp := printOK st.infoCache, calls := [] }
  else
    let st : CacheState := { st with tsLast := tsNow }
    let st : CacheState := { st with infoCache := infoText sys }
    { state := st, resp := printOK st.infoCache, calls := infoCommands }

/-! ## `strconv.Atoi` on a 64-bit target -/

/-- The two kinds of error that `strconv` reports. -/
inductive NumError where
  | ErrSyntax
  | ErrRange
deriving DecidableEq

deriving instance DecidableEq for Except

/-- Value of a decimal digit character. -/
def digitVal (c : Char) : Nat := c.toNat - 48

/-- The constant `cutoff` of `ParseUint` for base 10: `maxUint64/10 + 1`. -/
def uintCutoff : Nat := (2 ^ 64 - 1) / 10 + 1

/-- The digit loop of `strconv.ParseUint(s, 10, 0)` with accumulator `n`: a character that
is not a decimal digit is a syntax error; an accumulator that would leave `uint64` when
multiplied by ten, or that wraps when the digit is added, is a range error. -/
def parseUintLoop : List Char → Nat → Except NumError Nat
  | [], n => .ok n
  | c :: cs, n =>
    if c.isDigit then
      if n ≥ uintCutoff then .error .ErrRange
      else
        let n := (n * 10) % 2 ^ 64
        let n1 := (n + digitVal c) % 2 ^ 64
        if n1 < n ∨ n1 > 2 ^ 64 - 1 then .error .ErrRange
        else parseUintLoop cs n1
    else .error .ErrSyntax

/-- Embedding of `strconv.ParseUint(s, 10, 0)` on the characters of `s`. -/
def ParseUint (s : List Char) : Except NumError Nat :=
  if s = [] then .error .ErrSyntax else parseUintLoop s 0

/-- Embedding of `strconv.ParseInt(s, 10, 0)` on the characters of `s`: an optional sign,
then `ParseUint`; a magnitude of `2^63` or more (more than `2^63` after a minus sign) is a
range error, as is a range error of `ParseUint` itself. -/
def ParseInt (s : List Char) : Except NumError Int :=
  if s = [] then .error .ErrSyntax
  else
    let neg := s.head? = some '-'
    let digits := if s.head? = some '+' ∨ s.head? = some '-' then s.tail else s
    match ParseUint digits with
    | .error .ErrSyntax => .error .ErrSyntax
    | .error .ErrRange => .error .ErrRange
    | .ok un =>
      if ¬ neg ∧ un ≥ 2 ^ 63 then .error .ErrRange
      else if neg ∧ un > 2 ^ 63 then .error .ErrRange
      else .ok (if neg then -(un : Int) else un)

/-- The digit loop of the fast path of `strconv.Atoi` with accumulator `n`. -/
def atoiFastLoop : List Char → Int → Except NumError Int
  | [], n => .ok n
  | c :: cs, n =>
    if c.isDigit then atoiFastLoop cs (n * 10 + digitVal c) else .error .ErrSyntax

/-- The fast path of `strconv.Atoi`, taken for texts of 1 to 18 bytes. -/
def atoiFast (s0 : List Char) : Except NumError Int :=
  let signed := s0.head? = some '-' ∨ s0.head? = some '+'
  let s := if signed then s0.tail else s0
  if signed ∧ s.length < 1 then .error .ErrSyntax
  else
    match atoiFastLoop s 0 with
    | .error e => .error e
    | .ok n => .ok (if s0.head? = some '-' then -n else n)

/-- Embedding of `strconv.Atoi(s)` where `int` has 64 bits: the fast path for texts of 1
to 18 bytes, `ParseInt(s, 10, 0)` for all others. -/
def Atoi (s : String) : Except NumError Int :=
  let sLen := s.utf8ByteSize
  if 0 < sLen ∧ sLen < 19 then atoiFast s.data else ParseInt s.data

/-! ## `rawStatHandle` (lines 154-182) -/

/-- Embedding of `url.Values.Get`: the first value stored under `key`, or the empty string.
The query is given as the map from a key to its list of values. -/
def Get (query : String → List String) (key : String) : String :=
  match query key with
  | [] => ""
  | v :: _ => v

/-- What a handler without state leaves behind: its response and the commands it ran
through `execCommand`, in order. -/
structure Served where
  resp : Response
  calls : List (String × List String)
deriving DecidableEq

/-- Lines 171-181 of `rawStatHandle`: the command is built from `mode` and `limit`, run,
and its output passed on. -/
def rawStatRun (mode limit : String) (sys : System) : Served :=
  let commandPrompt := "vnstat --json " ++ mode ++ " " ++ limit
  let result := execCommand sys commandPrompt []
  if result = "" then
    { resp := httpError "error" StatusBadRequest, calls := [(commandPrompt, [])] }
  else
    { resp := { status := StatusOK, header := [("Content-Type", "application/json")],
                body := result }
      calls := [(commandPrompt, [])] }

/-- Embedding of `rawStatHandle` (lines 154-182) for the parsed query `query`. -/
def rawStatHandle (query : String → List String) (sys : System) : Served :=
  let mode := Get query "mode"
  let mode := if mode = "" then "d" else mode
  let limit := Get query "limit"
  let limit := if limit = "" then "30" else limit
  match Atoi limit with
  | .ok li =>
    if li > 90 then { resp := httpError "error" StatusBadRequest, calls := [] }
    else rawStatRun mode limit sys
  | .error _ => rawStatRun mode limit sys

/-- A text is a decimal numeral when it is a non-empty run of decimal digits. -/
def isNumeral (s : String) : Bool := !s.data.isEmpty && s.data.all Char.isDigit

/-- The number that a run of decimal digits denotes, continuing from `n`. -/
def digitsValue : List Char → Nat → Nat
  | [], n => n
  | c :: cs, n => digitsValue cs (n * 10 + digitVal c)

/-- The number that a decimal numeral denotes. -/
def numeralValue (s : String) : Nat := digitsValue s.data 0

/-- A query holding the single parameter `limit`. -/
def queryLimit (limit : String) : String → List String :=
  fun key => if key = "limit" then [limit] else []

/-- Exact (unbounded) sum of the `Rx` counters of a list of day records. -/
def sumRx (l : List DayStats) : Nat := (l.map fun d => d.Rx).sum

/-- Exact (unbounded) sum of the `Tx` counters of a list of day records. -/
def sumTx (l : List DayStats) : Nat := (l.map fun d => d.Tx).sum

/-! ## Concrete inputs used to exercise the theorems -/

/-- A day record carrying the two counters `rx` and `tx`. -/
def mkDay (rx tx : Nat) : DayStats := ⟨0, ⟨0, 0, 0⟩, 0, rx, tx⟩

/-- A system on which every command succeeds with standard output `out`. -/
def sysConst (out : String) : System := fun _ _ => ⟨out, none⟩

/-- A decoded payload with a single interface `eth0` whose day list is `days`. -/
def payloadOf (days : List DayStats) : VnStatData :=
  ⟨"2.12", 2, [⟨"eth0", "", ⟨⟨0, 0, 0⟩, none, 0⟩, ⟨⟨0, 0, 0⟩, none, 0⟩, ⟨⟨0, 0⟩, days⟩⟩]⟩

/-- A decoder that succeeds with `payloadOf days` on every text. -/
def unmarshalTo (days : List DayStats) : String → Except String VnStatData :=
  fun _ => .ok (payloadOf days)

/-- A system on which `fastfetch` succeeds with output `o1`, `vnstat -h` fails, and every
other command succeeds with output `o`. -/
def sysFast (o1 o : String) : System := fun name arg =>
  if name = "fastfetch" then ⟨o1, none⟩
  else if arg = ["-h"] then ⟨"half", some "exit status 1"⟩
  else ⟨o, none⟩

/-- The scenario of the specification: three records delivered as `10/5, 20/5, 30/5`. -/
def days3 : List DayStats := [mkDay 10 5, mkDay 20 5, mkDay 30 5]

/-- Eight records delivered with `rx = 1, 2, ..., 8` and `tx = 0`. -/
def days8 : List DayStats :=
  [mkDay 1 0, mkDay 2 0, mkDay 3 0, mkDay 4 0, mkDay 5 0, mkDay 6 0, mkDay 7 0, mkDay 8 0]

/-- Two records whose exact `rx` sum is `2^64`. -/
def daysBig : List DayStats := [mkDay (2 ^ 63) 0, mkDay (2 ^ 63) 0]

/-! ## Lemmas on the summation loop -/

theorem sumRx_cons (d : DayStats) (l : List DayStats) : sumRx (d :: l) = d.Rx + sumRx l := by
  simp [sumRx]

theorem sumTx_cons (d : DayStats) (l : List DayStats) : sumTx (d :: l) = d.Tx + sumTx l := by
  simp [sumTx]

theorem sumRx_reverse (l : List DayStats) : sumRx l.reverse = sumRx l := by
  simp [sumRx, List.sum_reverse]

theorem sumTx_reverse (l : List DayStats) : sumTx l.reverse = sumTx l := by
  simp [sumTx, List.sum_reverse]

theorem statLoop_day (l : List DayStats) (i : Nat) (r : Stat) :
    (statLoop i l r).DayRx = r.DayRx ∧ (statLoop i l r).DayTX = r.DayTX := by
  induction l generalizing i r with
  | nil => simp [statLoop]
  | cons d rest ih =>
    rw [statLoop]
    obtain ⟨h1, h2⟩ := ih (i + 1) (statStep r i d)
    rw [h1, h2]
    unfold statStep
    split <;> simp

theorem statLoop_day30 (l : List DayStats) (i : Nat) (r : Stat)
    (hrx : r.Day30Rx < 2 ^ 64) (htx : r.Day30TX < 2 ^ 64) :
    (statLoop i l r).Day30Rx = (r.Day30Rx + sumRx l) % 2 ^ 64 ∧
    (statLoop i l r).Day30TX = (r.Day30TX + sumTx l) % 2 ^ 64 := by
  induction l generalizing i r with
  | nil =>
    simp only [statLoop, sumRx, sumTx, List.map_nil, List.sum_nil, List.take_nil, Nat.add_zero]
    exact ⟨(Nat.mod_eq_of_lt hrx).symm, (Nat.mod_eq_of_lt htx).symm⟩
  | cons d rest ih =>
    rw [statLoop, sumRx_cons, sumTx_cons]
    have e1 : (statStep r i d).Day30Rx = (r.Day30Rx + d.Rx) % 2 ^ 64 := by
      unfold statStep addU64; split <;> rfl
    have e2 : (statStep r i d).Day30TX = (r.Day30TX + d.Tx) % 2 ^ 64 := by
      unfold statStep addU64; split <;> rfl
    have b1 : (statStep r i d).Day30Rx < 2 ^ 64 := by
      rw [e1]; exact Nat.mod_lt _ (by norm_num)
    have b2 : (statStep r i d).Day30TX < 2 ^ 64 := by
      rw [e2]; exact Nat.mod_lt _ (by norm_num)
    obtain ⟨h1, h2⟩ := ih (i + 1) (statStep r i d) b1 b2
    rw [h1, h2, e1, e2]
    constructor <;> omega

theorem statLoop_day7 (l : List DayStats) (i : Nat) (r : Stat)
    (hrx : r.Day7Rx < 2 ^ 64) (htx : r.Day7TX < 2 ^ 64) :
    (statLoop i l r).Day7Rx = (r.Day7Rx + sumRx (l.take (7 - i))) % 2 ^ 64 ∧
    (statLoop i l r).Day7TX = (r.Day7TX + sumTx (l.take (7 - i))) % 2 ^ 64 := by
  induction l generalizing i r with
  | nil =>
    simp only [statLoop, sumRx, sumTx, List.map_nil, List.sum_nil, List.take_nil, Nat.add_zero]
    exact ⟨(Nat.mod_eq_of_lt hrx).symm, (Nat.mod_eq_of_lt htx).symm⟩
  | cons d rest ih =>
    rw [statLoop]
    by_cases hi : i < 7
    · have e1 : (statStep r i d).Day7Rx = (r.Day7Rx + d.Rx) % 2 ^ 64 := by
        simp [statStep, addU64, hi]
      have e2 : (statStep r i d).Day7TX = (r.Day7TX + d.Tx) % 2 ^ 64 := by
        simp [statStep, addU64, hi]
      have b1 : (statStep r i d).Day7Rx < 2 ^ 64 := by
        rw [e1]; exact Nat.mod_lt _ (by norm_num)
      have b2 : (statStep r i d).Day7TX < 2 ^ 64 := by
        rw [e2]; exact Nat.mod_lt _ (by norm_num)
      obtain ⟨h1, h2⟩ := ih (i + 1) (statStep r i d) b1 b2
      have ht : 7 - i = (7 - (i + 1)) + 1 := by omega
      rw [h1, h2, e1, e2, ht, List.take_succ_cons, sumRx_cons, sumTx_cons]
      constructor <;> omega
    · have e1 : (statStep r i d).Day7Rx = r.Day7Rx := by
        simp [statStep, hi]
      have e2 : (statStep r i d).Day7TX = r.Day7TX := by
        simp [statStep, hi]
      obtain ⟨h1, h2⟩ := ih (i + 1) (statStep r i d) (by rw [e1]; exact hrx) (by rw [e2]; exact htx)
      have ht : 7 - i = 0 := by omega
      have ht2 : 7 - (i + 1) = 0 := by omega
      rw [h1, h2, e1, e2, ht, ht2]
      simp

/-- The six fields that `statTotals` computes from the (already reversed) slice. -/
theorem statTotals_fields (Day : List DayStats) :
    (∀ d, Day.head? = some d → (statTotals Day).DayRx = d.Rx ∧ (statTotals Day).DayTX = d.Tx) ∧
    (statTotals Day).Day7Rx = sumRx (Day.take 7) % 2 ^ 64 ∧
    (statTotals Day).Day7TX = sumTx (Day.take 7) % 2 ^ 64 ∧
    (statTotals Day).Day30Rx = sumRx Day % 2 ^ 64 ∧
    (statTotals Day).Day30TX = sumTx Day % 2 ^ 64 := by
  refine ⟨?_, ?_, ?_, ?_, ?_⟩
  · intro d hd
    cases Day with
    | nil => simp at hd
    | cons e rest =>
      simp only [List.head?_cons, Option.some.injEq] at hd
      subst hd
      have := statLoop_day (e :: rest) 0 { DayRx := e.Rx, DayTX := e.Tx, Day7Rx := 0, Day7TX := 0, Day30Rx := 0, Day30TX := 0 }
      simpa [statTotals] using this
  all_goals
    cases Day with
    | nil => simp [statTotals, statLoop, sumRx, sumTx]
    | cons e rest =>
      have h7 := statLoop_day7 (e :: rest) 0 { DayRx := e.Rx, DayTX := e.Tx, Day7Rx := 0, Day7TX := 0, Day30Rx := 0, Day30TX := 0 } (by simp) (by simp)
      have h30 := statLoop_day30 (e :: rest) 0 { DayRx := e.Rx, DayTX := e.Tx, Day7Rx := 0, Day7TX := 0, Day30Rx := 0, Day30TX := 0 } (by simp) (by simp)
      simp only [Nat.zero_add, Nat.sub_zero] at h7 h30
      simp only [statTotals]
      first | exact h7.1 | exact h7.2 | exact h30.1 | exact h30.2

/-- On the success path `statHandle` answers with the totals of the reversed day list. -/
theorem statHandle_of_delivered (sys : System) (unmarshal : String → Except String VnStatData)
    (days : List DayStats) (h : deliveredDays sys unmarshal = some days) :
    statHandle sys unmarshal = statOK (statTotals days.reverse) := by
  unfold deliveredDays at h
  unfold statHandle
  simp only at h ⊢
  split at h
  · simp at h
  · rename_i hne
    rw [if_neg hne]
    split at h
    · simp at h
    · split at h
      · simp at h
      · simp only [Option.some.injEq] at h
        rw [h]

/-! ## Claims on `statHandle`'s totals -/

/-- C1 (counterexample): for the delivered sequence `10/5, 20/5, 30/5` the response of
`statHandle` carries `dayRx = 30`, not the `10` of the first delivered record. -/
theorem statHandle_day_first_delivered_counterexample :
    deliveredDays (sysConst "json") (unmarshalTo days3) = some days3 ∧
    days3.head? = some (mkDay 10 5) ∧
    statHandle (sysConst "json") (unmarshalTo days3) = statOK ⟨30, 5, 60, 15, 60, 15⟩ ∧
    (statHandle (sysConst "json") (unmarshalTo days3)).body =
      "\x7b\"dayRx\":30,\"dayTx\":5,\"day7Rx\":60,\"day7Tx\":15,\"day30Rx\":60,\"day30Tx\":15\x7d" ∧
    (statTotals days3.reverse).DayRx ≠ (mkDay 10 5).Rx := by
  decide

/-- C1 (amended): for every delivered sequence of at least one day record, `statHandle`
answers successfully and its `dayRx`/`dayTx` are the `rx`/`tx` of the last record of the
delivered sequence. -/
theorem statHandle_day_last_delivered (sys : System)
    (unmarshal : String → Except String VnStatData) (days : List DayStats)
    (h : deliveredDays sys unmarshal = some days) (hne : days ≠ []) :
    statHandle sys unmarshal = statOK (statTotals days.reverse) ∧
    (statTotals days.reverse).DayRx = (days.getLast hne).Rx ∧
    (statTotals days.reverse).DayTX = (days.getLast hne).Tx := by
  refine ⟨statHandle_of_delivered sys unmarshal days h, ?_⟩
  have hh : days.reverse.head? = some (days.getLast hne) := by
    rw [List.head?_reverse, List.getLast?_eq_getLast]
  exact (statTotals_fields days.reverse).1 _ hh

theorem statHandle_day_last_delivered_witness :
    deliveredDays (sysConst "json") (unmarshalTo days3) = some days3 ∧
    statHandle (sysConst "json") (unmarshalTo days3) = statOK (statTotals days3.reverse) ∧
    (statTotals days3.reverse).DayRx = 30 ∧ (statTotals days3.reverse).DayTX = 5 :=
  ⟨by decide,
   statHandle_day_last_delivered (sysConst "json") (unmarshalTo days3) days3 (by decide) (by decide)⟩

/-- C2 (counterexample): with eight delivered records `rx = 1..8` the reported `day7Rx` is
`35` (the last seven) and not `28` (the first seven); and with two delivered records of
`2^63` each the reported `day7Rx` is `0`, not the exact sum `2^64`. -/
theorem statHandle_day7_first_delivered_counterexample :
    (deliveredDays (sysConst "json") (unmarshalTo days8) = some days8 ∧
      statHandle (sysConst "json") (unmarshalTo days8) = statOK ⟨8, 0, 35, 0, 36, 0⟩ ∧
      sumRx (days8.take (min 7 days8.length)) = 28 ∧
      (statTotals days8.reverse).Day7Rx ≠ sumRx (days8.take (min 7 days8.length))) ∧
    (deliveredDays (sysConst "json") (unmarshalTo daysBig) = some daysBig ∧
      statHandle (sysConst "json") (unmarshalTo daysBig) = statOK ⟨2 ^ 63, 0, 0, 0, 0, 0⟩ ∧
      sumRx (daysBig.take (min 7 daysBig.length)) = 2 ^ 64 ∧
      (statTotals daysBig.reverse).Day7Rx ≠ sumRx (daysBig.take (min 7 daysBig.length))) := by
  decide

/-- C2 (amended): for every delivered sequence of day records, `statHandle` answers
successfully and its `day7Rx`/`day7Tx` are, modulo `2^64`, the sums of `rx`/`tx` over the
last `min 7 N` records of the delivered sequence; with at most seven records that is the
sum over all of them. -/
theorem statHandle_day7_last_delivered (sys : System)
    (unmarshal : String → Except String VnStatData) (days : List DayStats)
    (h : deliveredDays sys unmarshal = some days) :
    statHandle sys unmarshal = statOK (statTotals days.reverse) ∧
    (statTotals days.reverse).Day7Rx
      = sumRx (days.drop (days.length - min 7 days.length)) % 2 ^ 64 ∧
    (statTotals days.reverse).Day7TX
      = sumTx (days.drop (days.length - min 7 days.length)) % 2 ^ 64 ∧
    (days.length ≤ 7 →
      (statTotals days.reverse).Day7Rx = sumRx days % 2 ^ 64 ∧
      (statTotals days.reverse).Day7TX = sumTx days % 2 ^ 64) := by
  have hf := statTotals_fields days.reverse
  have hd : days.length - min 7 days.length = days.length - 7 := by omega
  have ht : days.reverse.take 7 = (days.drop (days.length - 7)).reverse := List.take_reverse
  rw [ht, sumRx_reverse, sumTx_reverse] at hf
  refine ⟨statHandle_of_delivered sys unmarshal days h, ?_, ?_, ?_⟩
  · rw [hd]; exact hf.2.1
  · rw [hd]; exact hf.2.2.1
  · intro hle
    have h0 : days.length - 7 = 0 := by omega
    rw [h0, List.drop_zero] at hf
    exact ⟨hf.2.1, hf.2.2.1⟩

theorem statHandle_day7_last_delivered_witness :
    deliveredDays (sysConst "json") (unmarshalTo days8) = some days8 ∧
    statHandle (sysConst "json") (unmarshalTo days8) = statOK (statTotals days8.reverse) ∧
    (statTotals days8.reverse).Day7Rx
      = sumRx (days8.drop (days8.length - min 7 days8.length)) % 2 ^ 64 ∧
    (statTotals days8.reverse).Day7TX
      = sumTx (days8.drop (days8.length - min 7 days8.length)) % 2 ^ 64 ∧
    (days8.length ≤ 7 →
      (statTotals days8.reverse).Day7Rx = sumRx days8 % 2 ^ 64 ∧
      (statTotals days8.reverse).Day7TX = sumTx days8 % 2 ^ 64) :=
  ⟨by decide,
   statHandle_day7_last_delivered (sysConst "json") (unmarshalTo days8) days8 (by decide)⟩

/-- C3: for every delivered sequence of day records whose exact `rx` and `tx` sums are
below `2^64`, `statHandle` answers successfully with `day30Rx`/`day30Tx` equal to the sums
of `rx`/`tx` over all records; the sums, and the totals computed by lines 132-144, are the
same for the sequence and for its reversal. -/
theorem statHandle_day30_sum (sys : System)
    (unmarshal : String → Except String VnStatData) (days : List DayStats)
    (h : deliveredDays sys unmarshal = some days)
    (hrx : sumRx days < 2 ^ 64) (htx : sumTx days < 2 ^ 64) :
    statHandle sys unmarshal = statOK (statTotals days.reverse) ∧
    (statTotals days.reverse).Day30Rx = sumRx days ∧
    (statTotals days.reverse).Day30TX = sumTx days ∧
    sumRx days.reverse = sumRx days ∧ sumTx days.reverse = sumTx days ∧
    (statTotals days).Day30Rx = (statTotals days.reverse).Day30Rx ∧
    (statTotals days).Day30TX = (statTotals days.reverse).Day30TX := by
  have hr := statTotals_fields days.reverse
  have hd := statTotals_fields days
  rw [sumRx_reverse, sumTx_reverse] at hr
  have e1 : (statTotals days.reverse).Day30Rx = sumRx days := by
    rw [hr.2.2.2.1]; exact Nat.mod_eq_of_lt hrx
  have e2 : (statTotals days.reverse).Day30TX = sumTx days := by
    rw [hr.2.2.2.2]; exact Nat.mod_eq_of_lt htx
  refine ⟨statHandle_of_delivered sys unmarshal days h, e1, e2, sumRx_reverse days,
    sumTx_reverse days, ?_, ?_⟩
  · rw [hd.2.2.2.1, hr.2.2.2.1]
  · rw [hd.2.2.2.2, hr.2.2.2.2]

theorem statHandle_day30_sum_witness :
    deliveredDays (sysConst "json") (unmarshalTo days3) = some days3 ∧
    sumRx days3 < 2 ^ 64 ∧ sumTx days3 < 2 ^ 64 ∧
    statHandle (sysConst "json") (unmarshalTo days3) = statOK (statTotals days3.reverse) ∧
    (statTotals days3.reverse).Day30Rx = sumRx days3 ∧
    (statTotals days3.reverse).Day30TX = sumTx days3 ∧
    sumRx days3.reverse = sumRx days3 ∧ sumTx days3.reverse = sumTx days3 ∧
    (statTotals days3).Day30Rx = (statTotals days3.reverse).Day30Rx ∧
    (statTotals days3).Day30TX = (statTotals days3.reverse).Day30TX :=
  ⟨by decide, by decide, by decide,
   statHandle_day30_sum (sysConst "json") (unmarshalTo days3) days3 (by decide) (by decide)
     (by decide)⟩

/-- C10: `statHandle` works on the reversed day list. For every delivered sequence of at
least one record, index 0 of the reversed sequence is the last delivered record and
`dayRx`/`dayTx` are its `rx`/`tx`; `day7Rx`/`day7Tx` are, modulo `2^64`, the sums over the
first `min 7 N` records of the reversed sequence, which are the last `min 7 N` delivered
records. -/
theorem statHandle_reverses_first (sys : System)
    (unmarshal : String → Except String VnStatData) (days : List DayStats)
    (h : deliveredDays sys unmarshal = some days) (hne : days ≠ []) :
    statHandle sys unmarshal = statOK (statTotals days.reverse) ∧
    days.reverse[0]? = some (days.getLast hne) ∧
    (∀ d, days.reverse[0]? = some d →
      (statTotals days.reverse).DayRx = d.Rx ∧ (statTotals days.reverse).DayTX = d.Tx) ∧
    (statTotals days.reverse).Day7Rx
      = sumRx (days.reverse.take (min 7 days.length)) % 2 ^ 64 ∧
    (statTotals days.reverse).Day7TX
      = sumTx (days.reverse.take (min 7 days.length)) % 2 ^ 64 ∧
    days.reverse.take (min 7 days.length)
      = (days.drop (days.length - min 7 days.length)).reverse := by
  have hf := statTotals_fields days.reverse
  have hh : days.reverse[0]? = some (days.getLast hne) := by
    rw [← List.head?_eq_getElem?, List.head?_reverse, List.getLast?_eq_getLast]
  have hm : days.reverse.take (min 7 days.length) = days.reverse.take 7 := by
    rcases Nat.le_total 7 days.length with hl | hl
    · rw [Nat.min_eq_left hl]
    · rw [Nat.min_eq_right hl, List.take_of_length_le (by simp),
        List.take_of_length_le (by simpa using hl)]
  refine ⟨statHandle_of_delivered sys unmarshal days h, hh, ?_, ?_, ?_, List.take_reverse⟩
  · intro d hd
    rw [← List.head?_eq_getElem?] at hd
    exact hf.1 d hd
  · rw [hm]; exact hf.2.1
  · rw [hm]; exact hf.2.2.1

theorem statHandle_reverses_first_witness :
    deliveredDays (sysConst "json") (unmarshalTo days8) = some days8 ∧
    statHandle (sysConst "json") (unmarshalTo days8) = statOK (statTotals days8.reverse) ∧
    days8.reverse[0]? = some (days8.getLast (by decide)) ∧
    (∀ d, days8.reverse[0]? = some d →
      (statTotals days8.reverse).DayRx = d.Rx ∧ (statTotals days8.reverse).DayTX = d.Tx) ∧
    (statTotals days8.reverse).Day7Rx
      = sumRx (days8.reverse.take (min 7 days8.length)) % 2 ^ 64 ∧
    (statTotals days8.reverse).Day7TX
      = sumTx (days8.reverse.take (min 7 days8.length)) % 2 ^ 64 ∧
    days8.reverse.take (min 7 days8.length)
      = (days8.drop (days8.length - min 7 days8.length)).reverse :=
  ⟨by decide,
   statHandle_reverses_first (sysConst "json") (unmarshalTo days8) days8 (by decide) (by decide)⟩

/-! ## Claims on `statHandle`'s failure paths -/

theorem sumRx_eq_zero (l : List DayStats) (h : ∀ d ∈ l, d.Rx = 0 ∧ d.Tx = 0) :
    sumRx l = 0 ∧ sumTx l = 0 := by
  induction l with
  | nil => simp [sumRx, sumTx]
  | cons d rest ih =>
    have hd := h d (List.mem_cons_self d rest)
    have hr := ih fun e he => h e (List.mem_cons_of_mem d he)
    rw [sumRx_cons, sumTx_cons, hd.1, hd.2, hr.1, hr.2]
    exact ⟨rfl, rfl⟩

/-- Records without traffic, and no records at all, give the same all-zero totals. -/
theorem statTotals_zero (l : List DayStats) (h : ∀ d ∈ l, d.Rx = 0 ∧ d.Tx = 0) :
    statTotals l = ⟨0, 0, 0, 0, 0, 0⟩ := by
  obtain ⟨hday, h7r, h7t, h30r, h30t⟩ := statTotals_fields l
  have hz := sumRx_eq_zero l h
  have hz7 := sumRx_eq_zero (l.take 7) fun d hd => h d (List.mem_of_mem_take hd)
  rw [hz7.1] at h7r
  rw [hz7.2] at h7t
  rw [hz.1] at h30r
  rw [hz.2] at h30t
  have hd : (statTotals l).DayRx = 0 ∧ (statTotals l).DayTX = 0 := by
    cases l with
    | nil => exact ⟨rfl, rfl⟩
    | cons e rest =>
      have he := h e (List.mem_cons_self e rest)
      have := hday e rfl
      rw [he.1, he.2] at this
      exact this
  cases hs : statTotals l with
  | mk a b c d e f =>
    rw [hs] at hd h7r h7t h30r h30t
    simp only [Stat.mk.injEq]
    exact ⟨hd.1, hd.2, h7r, h7t, h30r, h30t⟩

/-- C4 (counterexample): a payload whose first interface has an empty day list is answered
with status 200 and the all-zero totals, not with a 400. -/
theorem statHandle_empty_days_counterexample :
    deliveredDays (sysConst "json") (unmarshalTo []) = some [] ∧
    statHandle (sysConst "json") (unmarshalTo []) = statOK ⟨0, 0, 0, 0, 0, 0⟩ ∧
    (statHandle (sysConst "json") (unmarshalTo [])).status = 200 ∧
    (statHandle (sysConst "json") (unmarshalTo [])).status ≠ StatusBadRequest ∧
    (statHandle (sysConst "json") (unmarshalTo [])).body =
      "\x7b\"dayRx\":0,\"dayTx\":0,\"day7Rx\":0,\"day7Tx\":0,\"day30Rx\":0,\"day30Tx\":0\x7d" := by
  decide

/-- C4 (amended): when the decoded payload has a first interface whose day list is empty,
`statHandle` answers with status 200 and the all-zero totals, and that response is the one
given for any delivered list of records that all carry zero traffic. -/
theorem statHandle_empty_days_zero (sys : System)
    (unmarshal : String → Except String VnStatData)
    (h : deliveredDays sys unmarshal = some []) :
    statHandle sys unmarshal = statOK ⟨0, 0, 0, 0, 0, 0⟩ ∧
    (statHandle sys unmarshal).status = StatusOK ∧
    (statHandle sys unmarshal).body =
      "\x7b\"dayRx\":0,\"dayTx\":0,\"day7Rx\":0,\"day7Tx\":0,\"day30Rx\":0,\"day30Tx\":0\x7d" ∧
    ∀ (sys2 : System) (unmarshal2 : String → Except String VnStatData) (days : List DayStats),
      deliveredDays sys2 unmarshal2 = some days → (∀ d ∈ days, d.Rx = 0 ∧ d.Tx = 0) →
      statHandle sys2 unmarshal2 = statHandle sys unmarshal := by
  have e : statHandle sys unmarshal = statOK ⟨0, 0, 0, 0, 0, 0⟩ :=
    statHandle_of_delivered sys unmarshal [] h
  refine ⟨e, by rw [e]; rfl, by rw [e]; decide, ?_⟩
  intro sys2 unmarshal2 days hd hz
  rw [e, statHandle_of_delivered sys2 unmarshal2 days hd,
    statTotals_zero days.reverse fun d hm => hz d (List.mem_reverse.mp hm)]

theorem statHandle_empty_days_zero_witness :
    deliveredDays (sysConst "json") (unmarshalTo []) = some [] ∧
    statHandle (sysConst "json") (unmarshalTo []) = statOK ⟨0, 0, 0, 0, 0, 0⟩ ∧
    (statHandle (sysConst "json") (unmarshalTo [])).status = StatusOK ∧
    (statHandle (sysConst "json") (unmarshalTo [])).body =
      "\x7b\"dayRx\":0,\"dayTx\":0,\"day7Rx\":0,\"day7Tx\":0,\"day30Rx\":0,\"day30Tx\":0\x7d" ∧
    ∀ (sys2 : System) (unmarshal2 : String → Except String VnStatData) (days : List DayStats),
      deliveredDays sys2 unmarshal2 = some days → (∀ d ∈ days, d.Rx = 0 ∧ d.Tx = 0) →
      statHandle sys2 unmarshal2 = statHandle (sysConst "json") (unmarshalTo []) :=
  ⟨by decide, statHandle_empty_days_zero (sysConst "json") (unmarshalTo []) (by decide)⟩

/-- C9 (counterexample): on empty command output the body is the message followed by a
line feed, not the bare text; likewise for a decoder error `bad`. -/
theorem statHandle_error_body_counterexample :
    (execCommand (sysConst "") "vnstat --json d 30" [] = "" ∧
      (statHandle (sysConst "") (unmarshalTo days3)).status = 400 ∧
      (statHandle (sysConst "") (unmarshalTo days3)).body = "error\n" ∧
      (statHandle (sysConst "") (unmarshalTo days3)).body ≠ "error") ∧
    (execCommand (sysConst "x") "vnstat --json d 30" [] ≠ "" ∧
      (statHandle (sysConst "x") fun _ => .error "bad").status = 400 ∧
      (statHandle (sysConst "x") fun _ => .error "bad").body = "bad\n" ∧
      (statHandle (sysConst "x") fun _ => .error "bad").body ≠ "bad") := by
  decide

/-- C9 (amended): `statHandle` answers with what `http.Error` writes for status 400 (the
message followed by a line feed) with message `error` when the command output is empty,
with the decoder's error text when the non-empty output fails to decode, and with
`empty data` when it decodes to a payload without interfaces. None of these responses is
a success response. -/
theorem statHandle_error_paths (sys : System) (unmarshal : String → Except String VnStatData) :
    (execCommand sys "vnstat --json d 30" [] = "" →
      statHandle sys unmarshal = httpError "error" StatusBadRequest ∧
      (statHandle sys unmarshal).status = 400 ∧
      (statHandle sys unmarshal).body = "error\n" ∧
      ∀ result, statHandle sys unmarshal ≠ statOK result) ∧
    (∀ err, execCommand sys "vnstat --json d 30" [] ≠ "" →
      unmarshal (execCommand sys "vnstat --json d 30" []) = .error err →
      statHandle sys unmarshal = httpError err StatusBadRequest ∧
      (statHandle sys unmarshal).status = 400 ∧
      (statHandle sys unmarshal).body = err ++ "\n" ∧
      ∀ result, statHandle sys unmarshal ≠ statOK result) ∧
    (∀ vnStat, execCommand sys "vnstat --json d 30" [] ≠ "" →
      unmarshal (execCommand sys "vnstat --json d 30" []) = .ok vnStat →
      vnStat.Interfaces = [] →
      statHandle sys unmarshal = httpError "empty data" StatusBadRequest ∧
      (statHandle sys unmarshal).status = 400 ∧
      (statHandle sys unmarshal).body = "empty data\n" ∧
      ∀ result, statHandle sys unmarshal ≠ statOK result) := by
  have key : ∀ msg, statHandle sys unmarshal = httpError msg StatusBadRequest →
      statHandle sys unmarshal = httpError msg StatusBadRequest ∧
      (statHandle sys unmarshal).status = 400 ∧
      (statHandle sys unmarshal).body = msg ++ "\n" ∧
      ∀ result, statHandle sys unmarshal ≠ statOK result := by
    intro msg hm
    refine ⟨hm, by rw [hm]; rfl, by rw [hm]; rfl, ?_⟩
    intro result hr
    have := congrArg Response.status (hm.symm.trans hr)
    simp [httpError, statOK, StatusBadRequest, StatusOK] at this
  refine ⟨?_, ?_, ?_⟩
  · intro he
    apply key
    simp [statHandle, he]
  · intro err hne hu
    apply key
    simp [statHandle, hne, hu]
  · intro vnStat hne hu hi
    apply key
    simp [statHandle, hne, hu, hi]

theorem statHandle_error_paths_witness :
    (statHandle (sysConst "") (unmarshalTo days3) = httpError "error" StatusBadRequest ∧
      (statHandle (sysConst "") (unmarshalTo days3)).status = 400 ∧
      (statHandle (sysConst "") (unmarshalTo days3)).body = "error\n" ∧
      ∀ result, statHandle (sysConst "") (unmarshalTo days3) ≠ statOK result) ∧
    (statHandle (sysConst "x") (fun _ => .error "bad") = httpError "bad" StatusBadRequest ∧
      (statHandle (sysConst "x") fun _ => .error "bad").status = 400 ∧
      (statHandle (sysConst "x") fun _ => .error "bad").body = "bad" ++ "\n" ∧
      ∀ result, statHandle (sysConst "x") (fun _ => .error "bad") ≠ statOK result) ∧
    (statHandle (sysConst "x") (fun _ => .ok ⟨"2.12", 2, []⟩)
        = httpError "empty data" StatusBadRequest ∧
      (statHandle (sysConst "x") fun _ => .ok ⟨"2.12", 2, []⟩).status = 400 ∧
      (statHandle (sysConst "x") fun _ => .ok ⟨"2.12", 2, []⟩).body = "empty data\n" ∧
      ∀ result, statHandle (sysConst "x") (fun _ => .ok ⟨"2.12", 2, []⟩) ≠ statOK result) :=
  ⟨(statHandle_error_paths (sysConst "") (unmarshalTo days3)).1 (by decide),
   (statHandle_error_paths (sysConst "x") fun _ => .error "bad").2.1 "bad" (by decide) rfl,
   (statHandle_error_paths (sysConst "x") fun _ => .ok ⟨"2.12", 2, []⟩).2.2 ⟨"2.12", 2, []⟩
     (by decide) rfl rfl⟩

/-! ## Claims on `infoHandle` -/

theorem subI64_eq (a b : Int) (hlo : -2 ^ 63 ≤ a - b) (hhi : a - b < 2 ^ 63) :
    subI64 a b = a - b := by
  unfold subI64
  omega

theorem infoCommands_ne_nil : infoCommands ≠ [] := by
  simp [infoCommands]

/-- A text in which `old` does not occur is left as it is by the scanner. -/
theorem replaceAllAux_of_not_infix (old new : List Char) (s : List Char)
    (h : ¬ List.IsInfix old s) : replaceAllAux old new 0 s = s := by
  induction s with
  | nil => rfl
  | cons c cs ih =>
    have hp : ¬ old.isPrefixOf (c :: cs) = true := by
      intro hp
      exact h (List.isPrefixOf_iff_prefix.mp hp).isInfix
    have ht : ¬ List.IsInfix old cs := fun hi => h (List.infix_cons hi)
    rw [replaceAllAux, if_neg hp, ih ht]

/-- `ReplaceAll` leaves a text without any instance of the non-empty `old` unchanged. -/
theorem ReplaceAll_of_not_infix (s old new : String) (hne : old ≠ "")
    (h : ¬ List.IsInfix old.data s.data) : ReplaceAll s old new = s := by
  unfold ReplaceAll
  rw [if_neg hne, replaceAllAux_of_not_infix old.data new.data s.data h]

/-- C5 (counterexample): starting from `tsLast = 1000`, `infoCache = old`, the calls at
seconds 1003 and 1006 are three seconds apart, yet the first writes the cached `old` and
the second writes the newly produced text. -/
theorem infoHandle_twice_same_text_counterexample :
    (1003 : Int) ≤ 1006 ∧ (1006 : Int) - 1003 ≤ 3 ∧
    (infoHandle ⟨1000, "old"⟩ 1003 (sysConst "new")).resp.body = "old" ∧
    (infoHandle (infoHandle ⟨1000, "old"⟩ 1003 (sysConst "new")).state 1006
      (sysConst "new")).resp.body = "newnewnewnewnew" ∧
    (infoHandle ⟨1000, "old"⟩ 1003 (sysConst "new")).resp.body ≠
      (infoHandle (infoHandle ⟨1000, "old"⟩ 1003 (sysConst "new")).state 1006
        (sysConst "new")).resp.body := by
  decide

/-- C5 (amended): for every starting state and two consecutive calls of `infoHandle` at
seconds `t1 ≤ t2` with `t2 - t1 ≤ 3`, at most one of the two calls runs the commands; the
two calls write the same text whenever the second call runs no command, which is always
so when the first call ran them; when the second call does run them, the first wrote the
cache of the starting state and the second writes the newly produced text. -/
theorem infoHandle_twice_within_window (st : CacheState) (t1 t2 : Int) (sys1 sys2 : System)
    (h12 : t1 ≤ t2) (hw : t2 - t1 ≤ 3) :
    ((infoHandle st t1 sys1).calls = [] ∨
      (infoHandle (infoHandle st t1 sys1).state t2 sys2).calls = []) ∧
    ((infoHandle (infoHandle st t1 sys1).state t2 sys2).calls = [] →
      (infoHandle st t1 sys1).resp.body =
        (infoHandle (infoHandle st t1 sys1).state t2 sys2).resp.body) ∧
    ((infoHandle (infoHandle st t1 sys1).state t2 sys2).calls ≠ [] →
      (infoHandle st t1 sys1).resp.body = st.infoCache ∧
      (infoHandle (infoHandle st t1 sys1).state t2 sys2).resp.body = infoText sys2) := by
  have hs : subI64 t2 t1 ≤ 3 := by
    rw [subI64_eq t2 t1 (by omega) (by omega)]; exact hw
  by_cases c1 : subI64 t1 st.tsLast ≤ 3
  · have e1 : infoHandle st t1 sys1 = ⟨st, printOK st.infoCache, []⟩ := by
      simp [infoHandle, c1]
    rw [e1]
    refine ⟨Or.inl rfl, ?_, ?_⟩
    · intro h2
      by_cases c2 : subI64 t2 st.tsLast ≤ 3
      · simp [infoHandle, c2]
      · exfalso
        simp [infoHandle, c2, infoCommands] at h2
    · intro h2
      by_cases c2 : subI64 t2 st.tsLast ≤ 3
      · exfalso
        simp [infoHandle, c2] at h2
      · simp [infoHandle, c2, printOK]
  · have e1 : infoHandle st t1 sys1 =
        ⟨⟨t1, infoText sys1⟩, printOK (infoText sys1), infoCommands⟩ := by
      simp [infoHandle, c1]
    rw [e1]
    have e2 : infoHandle
        (Outcome.mk ⟨t1, infoText sys1⟩ (printOK (infoText sys1)) infoCommands).state t2 sys2 =
        ⟨⟨t1, infoText sys1⟩, printOK (infoText sys1), []⟩ := by
      simp [infoHandle, hs]
    rw [e2]
    exact ⟨Or.inr rfl, fun _ => rfl, fun h => absurd rfl h⟩

theorem infoHandle_twice_within_window_witness :
    (1003 : Int) ≤ 1006 ∧ (1006 : Int) - 1003 ≤ 3 ∧
    ((infoHandle ⟨1000, "old"⟩ 1003 (sysConst "a")).calls = [] ∨
      (infoHandle (infoHandle ⟨1000, "old"⟩ 1003 (sysConst "a")).state 1006
        (sysConst "b")).calls = []) ∧
    ((infoHandle (infoHandle ⟨1000, "old"⟩ 1003 (sysConst "a")).state 1006
        (sysConst "b")).calls = [] →
      (infoHandle ⟨1000, "old"⟩ 1003 (sysConst "a")).resp.body =
        (infoHandle (infoHandle ⟨1000, "old"⟩ 1003 (sysConst "a")).state 1006
          (sysConst "b")).resp.body) ∧
    ((infoHandle (infoHandle ⟨1000, "old"⟩ 1003 (sysConst "a")).state 1006
        (sysConst "b")).calls ≠ [] →
      (infoHandle ⟨1000, "old"⟩ 1003 (sysConst "a")).resp.body
        = (⟨1000, "old"⟩ : CacheState).infoCache ∧
      (infoHandle (infoHandle ⟨1000, "old"⟩ 1003 (sysConst "a")).state 1006
        (sysConst "b")).resp.body = infoText (sysConst "b")) :=
  ⟨by decide, by decide,
   infoHandle_twice_within_window ⟨1000, "old"⟩ 1003 1006 (sysConst "a") (sysConst "b")
     (by decide) (by decide)⟩

/-- C6: when the exact difference `now - tsLast` fits `int64` (as it does for any two
epoch seconds), a call of `infoHandle` at second `now` runs the commands if and only if
`now - tsLast > 3`. On a hit it writes `infoCache`, runs nothing and leaves both variables
unchanged; on a miss it runs the five commands, writes the newly produced text and leaves
`tsLast = now` and `infoCache` equal to that text. -/
theorem infoHandle_hit_iff (st : CacheState) (now : Int) (sys : System)
    (hlo : -2 ^ 63 ≤ now - st.tsLast) (hhi : now - st.tsLast < 2 ^ 63) :
    ((infoHandle st now sys).calls ≠ [] ↔ now - st.tsLast > 3) ∧
    (now - st.tsLast ≤ 3 →
      infoHandle st now sys = ⟨st, printOK st.infoCache, []⟩ ∧
      (infoHandle st now sys).resp.body = st.infoCache ∧
      (infoHandle st now sys).state = st) ∧
    (now - st.tsLast > 3 →
      infoHandle st now sys = ⟨⟨now, infoText sys⟩, printOK (infoText sys), infoCommands⟩ ∧
      (infoHandle st now sys).resp.body = infoText sys ∧
      (infoHandle st now sys).state = ⟨now, infoText sys⟩) := by
  have hs := subI64_eq now st.tsLast hlo hhi
  by_cases c : now - st.tsLast ≤ 3
  · have e : infoHandle st now sys = ⟨st, printOK st.infoCache, []⟩ := by
      simp [infoHandle, hs, c]
    rw [e]
    refine ⟨?_, fun _ => ⟨rfl, rfl, rfl⟩, fun h => absurd c (by omega)⟩
    constructor
    · intro h; exact absurd rfl h
    · intro h; omega
  · have e : infoHandle st now sys =
        ⟨⟨now, infoText sys⟩, printOK (infoText sys), infoCommands⟩ := by
      simp [infoHandle, hs, c]
    rw [e]
    refine ⟨?_, fun h => absurd h c, fun _ => ⟨rfl, rfl, rfl⟩⟩
    constructor
    · intro _; omega
    · intro _; exact infoCommands_ne_nil

theorem infoHandle_hit_iff_witness :
    (-2 ^ 63 ≤ (1003 : Int) - (⟨1000, "old"⟩ : CacheState).tsLast) ∧
    ((1003 : Int) - (⟨1000, "old"⟩ : CacheState).tsLast < 2 ^ 63) ∧
    (((infoHandle ⟨1000, "old"⟩ 1003 (sysConst "a")).calls ≠ [] ↔
        (1003 : Int) - (⟨1000, "old"⟩ : CacheState).tsLast > 3) ∧
      ((1003 : Int) - (⟨1000, "old"⟩ : CacheState).tsLast ≤ 3 →
        infoHandle ⟨1000, "old"⟩ 1003 (sysConst "a")
          = ⟨⟨1000, "old"⟩, printOK (⟨1000, "old"⟩ : CacheState).infoCache, []⟩ ∧
        (infoHandle ⟨1000, "old"⟩ 1003 (sysConst "a")).resp.body
          = (⟨1000, "old"⟩ : CacheState).infoCache ∧
        (infoHandle ⟨1000, "old"⟩ 1003 (sysConst "a")).state = ⟨1000, "old"⟩) ∧
      ((1003 : Int) - (⟨1000, "old"⟩ : CacheState).tsLast > 3 →
        infoHandle ⟨1000, "old"⟩ 1003 (sysConst "a")
          = ⟨⟨1003, infoText (sysConst "a")⟩, printOK (infoText (sysConst "a")),
              infoCommands⟩ ∧
        (infoHandle ⟨1000, "old"⟩ 1003 (sysConst "a")).resp.body = infoText (sysConst "a") ∧
        (infoHandle ⟨1000, "old"⟩ 1003 (sysConst "a")).state
          = ⟨1003, infoText (sysConst "a")⟩)) :=
  ⟨by decide, by decide,
   infoHandle_hit_iff ⟨1000, "old"⟩ 1003 (sysConst "a") (by decide) (by decide)⟩

/-- C7 (counterexample): on a miss with `fastfetch` printing `a`, the cursor sequence
`ESC [34C`, then `b`, and the other commands printing `x`, the text written is `abxxx`
(the `vnstat -h` run failed), which is not the verbatim concatenation of the outputs. -/
theorem infoHandle_verbatim_counterexample :
    3 < subI64 2000 (⟨1000, "old"⟩ : CacheState).tsLast ∧
    execCommand (sysFast "a\x1b[34Cb" "x") "fastfetch" fastfetchArgs = "a\x1b[34Cb" ∧
    (infoHandle ⟨1000, "old"⟩ 2000 (sysFast "a\x1b[34Cb" "x")).resp.body = "abxxx" ∧
    (infoHandle ⟨1000, "old"⟩ 2000 (sysFast "a\x1b[34Cb" "x")).state.infoCache = "abxxx" ∧
    (infoHandle ⟨1000, "old"⟩ 2000 (sysFast "a\x1b[34Cb" "x")).resp.body ≠
      execCommand (sysFast "a\x1b[34Cb" "x") "fastfetch" fastfetchArgs ++
      execCommand (sysFast "a\x1b[34Cb" "x") "vnstat" [] ++
      execCommand (sysFast "a\x1b[34Cb" "x") "vnstat" ["-h"] ++
      execCommand (sysFast "a\x1b[34Cb" "x") "vnstat" ["-hg"] ++
      execCommand (sysFast "a\x1b[34Cb" "x") "vnstat" ["-5"] := by
  decide

/-- C7 (amended): on a cache miss, with `o1 .. o5` the texts that `execCommand` returns
for the five fixed commands in order, the text that `infoHandle` stores and writes is
`o1` with every instance of `ESC [34C` and then of `ESC [31C` removed, followed by
`o2 ++ o3 ++ o4 ++ o5` verbatim; it is exactly `o1 ++ o2 ++ o3 ++ o4 ++ o5` when neither
sequence occurs in `o1`; and a command whose run reports an error contributes the empty
string. -/
theorem infoHandle_miss_text (st : CacheState) (now : Int) (sys : System)
    (o1 o2 o3 o4 o5 : String) (hmiss : 3 < subI64 now st.tsLast)
    (h1 : execCommand sys "fastfetch" fastfetchArgs = o1)
    (h2 : execCommand sys "vnstat" [] = o2)
    (h3 : execCommand sys "vnstat" ["-h"] = o3)
    (h4 : execCommand sys "vnstat" ["-hg"] = o4)
    (h5 : execCommand sys "vnstat" ["-5"] = o5) :
    (infoHandle st now sys).resp.body
      = ReplaceAll (ReplaceAll o1 "\x1b[34C" "") "\x1b[31C" "" ++ o2 ++ o3 ++ o4 ++ o5 ∧
    (infoHandle st now sys).state.infoCache = (infoHandle st now sys).resp.body ∧
    (infoHandle st now sys).calls = infoCommands ∧
    (¬ List.IsInfix "\x1b[34C".data o1.data → ¬ List.IsInfix "\x1b[31C".data o1.data →
      (infoHandle st now sys).resp.body = o1 ++ o2 ++ o3 ++ o4 ++ o5) ∧
    (∀ name arg, (sys name arg).err ≠ none → execCommand sys name arg = "") := by
  have hc : ¬ subI64 now st.tsLast ≤ 3 := by omega
  have e : infoHandle st now sys =
      ⟨⟨now, infoText sys⟩, printOK (infoText sys), infoCommands⟩ := by
    simp [infoHandle, hc]
  have ht : infoText sys
      = ReplaceAll (ReplaceAll o1 "\x1b[34C" "") "\x1b[31C" "" ++ o2 ++ o3 ++ o4 ++ o5 := by
    simp only [infoText, h1, h2, h3, h4, h5, String.empty_append]
  rw [e]
  refine ⟨ht, rfl, rfl, ?_, ?_⟩
  · intro n1 n2
    show infoText sys = _
    rw [ht, ReplaceAll_of_not_infix o1 "\x1b[34C" "" (by decide) n1,
      ReplaceAll_of_not_infix o1 "\x1b[31C" "" (by decide) n2]
  · intro name arg he
    unfold execCommand
    cases hv : (sys name arg).err with
    | none => exact absurd hv he
    | some _ => rfl

theorem infoHandle_miss_text_witness :
    3 < subI64 2000 (⟨1000, "old"⟩ : CacheState).tsLast ∧
    ((infoHandle ⟨1000, "old"⟩ 2000 (sysFast "ab" "x")).resp.body
      = ReplaceAll (ReplaceAll "ab" "\x1b[34C" "") "\x1b[31C" "" ++ "x" ++ "" ++ "x" ++ "x" ∧
    (infoHandle ⟨1000, "old"⟩ 2000 (sysFast "ab" "x")).state.infoCache
      = (infoHandle ⟨1000, "old"⟩ 2000 (sysFast "ab" "x")).resp.body ∧
    (infoHandle ⟨1000, "old"⟩ 2000 (sysFast "ab" "x")).calls = infoCommands ∧
    (¬ List.IsInfix "\x1b[34C".data "ab".data → ¬ List.IsInfix "\x1b[31C".data "ab".data →
      (infoHandle ⟨1000, "old"⟩ 2000 (sysFast "ab" "x")).resp.body
        = "ab" ++ "x" ++ "" ++ "x" ++ "x") ∧
    (∀ name arg, (sysFast "ab" "x" name arg).err ≠ none →
      execCommand (sysFast "ab" "x") name arg = "")) :=
  ⟨by decide,
   infoHandle_miss_text ⟨1000, "old"⟩ 2000 (sysFast "ab" "x") "ab" "x" "" "x" "x" (by decide)
     (by decide) (by decide) (by decide) (by decide) (by decide)⟩

/-! ## Claims on `rawStatHandle` -/

theorem digitVal_le (c : Char) (h : c.isDigit = true) : digitVal c ≤ 9 := by
  unfold Char.isDigit at h
  unfold digitVal Char.toNat
  simp only [Bool.and_eq_true, decide_eq_true_eq] at h
  have h2 : c.val.toNat ≤ 57 := h.2
  omega

theorem isDigit_ne_sign (c : Char) (h : c.isDigit = true) : c ≠ '+' ∧ c ≠ '-' := by
  constructor <;> (intro e; subst e; revert h; decide)

theorem digitsValue_ge (cs : List Char) (n : Nat) : n ≤ digitsValue cs n := by
  induction cs generalizing n with
  | nil => exact Nat.le_refl _
  | cons c cs ih =>
    rw [digitsValue]
    exact Nat.le_trans (by omega) (ih _)

theorem digitsValue_lt (cs : List Char) (n : Nat) (h : cs.all Char.isDigit = true) :
    digitsValue cs n < (n + 1) * 10 ^ cs.length := by
  induction cs generalizing n with
  | nil => simp [digitsValue]
  | cons c cs ih =>
    simp only [List.all_cons, Bool.and_eq_true] at h
    have hd := digitVal_le c h.1
    have := ih (n * 10 + digitVal c) h.2
    rw [digitsValue, List.length_cons, Nat.pow_succ]
    calc digitsValue cs (n * 10 + digitVal c)
        < (n * 10 + digitVal c + 1) * 10 ^ cs.length := this
      _ ≤ ((n + 1) * 10) * 10 ^ cs.length := Nat.mul_le_mul_right _ (by omega)
      _ = (n + 1) * (10 ^ cs.length * 10) := by ring

theorem parseUintLoop_digits (cs : List Char) (n : Nat) (h : cs.all Char.isDigit = true)
    (hn : n < 2 ^ 64) :
    parseUintLoop cs n =
      if digitsValue cs n < 2 ^ 64 then .ok (digitsValue cs n) else .error .ErrRange := by
  induction cs generalizing n with
  | nil => rw [parseUintLoop, digitsValue, if_pos hn]
  | cons c cs ih =>
    simp only [List.all_cons, Bool.and_eq_true] at h
    have hd := digitVal_le c h.1
    have hge := digitsValue_ge cs (n * 10 + digitVal c)
    rw [parseUintLoop, if_pos h.1, digitsValue]
    by_cases hc : n ≥ uintCutoff
    · rw [if_pos hc]
      have : ¬ digitsValue cs (n * 10 + digitVal c) < 2 ^ 64 := by
        unfold uintCutoff at hc
        omega
      rw [if_neg this]
    · rw [if_neg hc]
      have hm : n * 10 % 2 ^ 64 = n * 10 := by
        unfold uintCutoff at hc
        omega
      simp only [hm]
      by_cases hw : n * 10 + digitVal c < 2 ^ 64
      · have e : (n * 10 + digitVal c) % 2 ^ 64 = n * 10 + digitVal c := Nat.mod_eq_of_lt hw
        rw [e, if_neg (by omega), ih _ h.2 hw]
      · have e : (n * 10 + digitVal c) % 2 ^ 64 < n * 10 := by
          unfold uintCutoff at hc
          omega
        rw [if_pos (Or.inl e)]
        have : ¬ digitsValue cs (n * 10 + digitVal c) < 2 ^ 64 := by omega
        rw [if_neg this]

theorem atoiFastLoop_digits (cs : List Char) (n : Nat) (h : cs.all Char.isDigit = true) :
    atoiFastLoop cs (n : Int) = .ok ((digitsValue cs n : Nat) : Int) := by
  induction cs generalizing n with
  | nil => rfl
  | cons c cs ih =>
    simp only [List.all_cons, Bool.and_eq_true] at h
    rw [atoiFastLoop, if_pos h.1, digitsValue, ← ih _ h.2]
    push_cast
    rfl

theorem length_le_utf8ByteSize_go (cs : List Char) : cs.length ≤ String.utf8ByteSize.go cs := by
  induction cs with
  | nil => exact Nat.le_refl _
  | cons c cs ih =>
    have := c.utf8Size_pos
    simp only [String.utf8ByteSize.go, List.length_cons]
    omega

theorem length_le_utf8ByteSize (s : String) : s.data.length ≤ s.utf8ByteSize := by
  cases s with
  | mk cs => exact length_le_utf8ByteSize_go cs

theorem parseUintLoop_nondigit (cs : List Char) (n : Nat)
    (h : ∃ c ∈ cs, c.isDigit = false) : ∃ e, parseUintLoop cs n = .error e := by
  induction cs generalizing n with
  | nil => simp at h
  | cons d ds ih =>
    rw [parseUintLoop]
    by_cases hd : d.isDigit = true
    · rw [if_pos hd]
      have ht : ∃ c ∈ ds, c.isDigit = false := by
        obtain ⟨c, hc, hn⟩ := h
        rcases List.mem_cons.mp hc with e | e
        · subst e; rw [hd] at hn; exact absurd hn (by decide)
        · exact ⟨c, e, hn⟩
      split
      · exact ⟨_, rfl⟩
      · simp only
        split
        · exact ⟨_, rfl⟩
        · exact ih _ ht
    · rw [if_neg hd]
      exact ⟨_, rfl⟩

theorem atoiFastLoop_nondigit (cs : List Char) (n : Int)
    (h : ∃ c ∈ cs, c.isDigit = false) : ∃ e, atoiFastLoop cs n = .error e := by
  induction cs generalizing n with
  | nil => simp at h
  | cons d ds ih =>
    rw [atoiFastLoop]
    by_cases hd : d.isDigit = true
    · rw [if_pos hd]
      obtain ⟨c, hc, hn⟩ := h
      rcases List.mem_cons.mp hc with e | e
      · subst e; rw [hd] at hn; exact absurd hn (by decide)
      · exact ih _ ⟨c, e, hn⟩
    · rw [if_neg hd]
      exact ⟨_, rfl⟩

/-- Stripping a leading sign keeps every character that is not a sign. -/
theorem mem_strip_sign (s : List Char) (c : Char) (hc : c ∈ s) (hp : c ≠ '+') (hm : c ≠ '-')
    (P : Prop) [Decidable P] (hP : P → s.head? = some '+' ∨ s.head? = some '-') :
    c ∈ (if P then s.tail else s) := by
  by_cases h : P
  · rw [if_pos h]
    cases s with
    | nil => simp at hc
    | cons d ds =>
      rcases List.mem_cons.mp hc with e | e
      · subst e
        rcases hP h with h1 | h1
        · simp only [List.head?_cons, Option.some.injEq] at h1; exact absurd h1 hp
        · simp only [List.head?_cons, Option.some.injEq] at h1; exact absurd h1 hm
      · exact e
  · rw [if_neg h]; exact hc

/-- On a decimal numeral `Atoi` yields the number denoted when it is below `2^63`, and a
range error otherwise. -/
theorem Atoi_numeral (s : String) (h : isNumeral s = true) :
    Atoi s = if numeralValue s < 2 ^ 63 then .ok (numeralValue s : Int)
             else .error .ErrRange := by
  unfold isNumeral at h
  simp only [Bool.and_eq_true, Bool.not_eq_true', List.isEmpty_eq_false] at h
  obtain ⟨hne, hall⟩ := h
  unfold numeralValue
  cases hs : s.data with
  | nil => exact absurd hs hne
  | cons c cs =>
    rw [hs] at hall
    have hc : c.isDigit = true := by
      simp only [List.all_cons, Bool.and_eq_true] at hall; exact hall.1
    obtain ⟨hp, hm⟩ := isDigit_ne_sign c hc
    have hh1 : ¬ ((c :: cs).head? = some '-') := by simpa using hm
    have hh2 : ¬ ((c :: cs).head? = some '+') := by simpa using hp
    have hfast : atoiFast (c :: cs) = .ok ((digitsValue (c :: cs) 0 : Nat) : Int) := by
      have := atoiFastLoop_digits (c :: cs) 0 hall
      simp only [Nat.cast_zero] at this
      unfold atoiFast
      simp only [hh1, hh2, or_self, if_false, false_and, this]
    have hslow : ParseInt (c :: cs) =
        if digitsValue (c :: cs) 0 < 2 ^ 63 then .ok ((digitsValue (c :: cs) 0 : Nat) : Int)
        else .error .ErrRange := by
      have := parseUintLoop_digits (c :: cs) 0 hall (by norm_num)
      unfold ParseInt ParseUint
      simp only [hh1, hh2, or_self, if_false, false_and, this, List.cons_ne_nil, not_false_eq_true,
        true_and, ge_iff_le]
      by_cases h64 : digitsValue (c :: cs) 0 < 2 ^ 64
      · rw [if_pos h64]
        simp only
        by_cases h63 : digitsValue (c :: cs) 0 < 2 ^ 63
        · rw [if_neg (by omega), if_pos h63]
        · rw [if_pos (by omega), if_neg h63]
      · rw [if_neg h64, if_neg (by omega)]
    unfold Atoi
    simp only [hs]
    split
    · rename_i hlen
      have hl := length_le_utf8ByteSize s
      rw [hs] at hl
      have hb := digitsValue_lt (c :: cs) 0 hall
      have hpow : 10 ^ (c :: cs).length ≤ 10 ^ 18 :=
        Nat.pow_le_pow_right (by norm_num) (by omega)
      rw [hfast, if_pos (by omega)]
    · exact hslow

/-- A text holding a character that is neither a decimal digit nor a sign is not parsed. -/
theorem Atoi_error_of_nondigit (s : String)
    (h : ∃ c ∈ s.data, c.isDigit = false ∧ c ≠ '+' ∧ c ≠ '-') :
    ∃ e, Atoi s = .error e := by
  obtain ⟨c, hc, hd, hp, hm⟩ := h
  unfold Atoi
  simp only
  split
  · have hmem := mem_strip_sign s.data c hc hp hm
      (s.data.head? = some '-' ∨ s.data.head? = some '+') (fun h => h.symm)
    obtain ⟨e, he⟩ := atoiFastLoop_nondigit _ 0 ⟨c, hmem, hd⟩
    by_cases hsg : s.data.head? = some '-' ∨ s.data.head? = some '+'
    · rw [if_pos hsg] at he
      simp only [atoiFast, hsg, if_true, true_and, he]
      by_cases hl : s.data.tail.length < 1
      · rw [if_pos hl]; exact ⟨_, rfl⟩
      · rw [if_neg hl]; exact ⟨_, rfl⟩
    · rw [if_neg hsg] at he
      simp only [atoiFast, hsg, if_false, false_and, he]
      exact ⟨_, rfl⟩
  · unfold ParseInt
    simp only
    split
    · exact ⟨_, rfl⟩
    · have hmem := mem_strip_sign s.data c hc hp hm
        (s.data.head? = some '+' ∨ s.data.head? = some '-') (fun h => h)
      have hne : (if s.data.head? = some '+' ∨ s.data.head? = some '-' then s.data.tail
          else s.data) ≠ [] := List.ne_nil_of_mem hmem
      obtain ⟨e, he⟩ := parseUintLoop_nondigit _ 0 ⟨c, hmem, hd⟩
      unfold ParseUint
      rw [if_neg hne, he]
      cases e <;> exact ⟨_, rfl⟩

/-- C8 (counterexample): the limit `9223372036854775808` is a decimal numeral denoting a
number greater than 90, yet `Atoi` reports a range error for it, so `rawStatHandle` does
not reject it: the command is run with that limit and its output returned with status 200. -/
theorem rawStatHandle_huge_limit_counterexample :
    isNumeral "9223372036854775808" = true ∧
    90 < numeralValue "9223372036854775808" ∧
    Atoi "9223372036854775808" = .error .ErrRange ∧
    rawStatHandle (queryLimit "9223372036854775808") (sysConst "json")
      = ⟨⟨200, [("Content-Type", "application/json")], "json"⟩,
         [("vnstat --json d 9223372036854775808", [])]⟩ ∧
    (rawStatHandle (queryLimit "9223372036854775808") (sysConst "json")).resp.status
      ≠ StatusBadRequest ∧
    (rawStatHandle (queryLimit "9223372036854775808") (sysConst "json")).calls ≠ [] := by
  decide

/-- C8 (amended): with `mode` and `limit` the two parameters after defaulting, a `limit`
that is a decimal numeral denoting a number greater than 90 and below `2^63` is answered
with 400 and no command is run. A numeral denoting at most 90 (such as `90`, or the
default `30` of an absent limit), a numeral denoting `2^63` or more, a text holding a
character that is neither digit nor sign, and any other text `Atoi` does not parse are not
rejected: the single command `vnstat --json mode limit` is run with the limit text
unchanged. -/
theorem rawStatHandle_limit (query : String → List String) (sys : System) (mode limit : String)
    (hmode : mode = if Get query "mode" = "" then "d" else Get query "mode")
    (hlimit : limit = if Get query "limit" = "" then "30" else Get query "limit") :
    (isNumeral limit = true → 90 < numeralValue limit → numeralValue limit < 2 ^ 63 →
      rawStatHandle query sys = ⟨httpError "error" StatusBadRequest, []⟩) ∧
    (isNumeral limit = true → numeralValue limit ≤ 90 →
      rawStatHandle query sys = rawStatRun mode limit sys) ∧
    (isNumeral limit = true → 2 ^ 63 ≤ numeralValue limit →
      rawStatHandle query sys = rawStatRun mode limit sys) ∧
    ((∃ c ∈ limit.data, c.isDigit = false ∧ c ≠ '+' ∧ c ≠ '-') →
      rawStatHandle query sys = rawStatRun mode limit sys) ∧
    (∀ e, Atoi limit = .error e → rawStatHandle query sys = rawStatRun mode limit sys) ∧
    (Get query "limit" = "" → limit = "30" ∧
      rawStatHandle query sys = rawStatRun mode "30" sys) ∧
    (Get query "limit" = "90" → limit = "90" ∧
      rawStatHandle query sys = rawStatRun mode "90" sys) ∧
    (rawStatRun mode limit sys).calls = [("vnstat --json " ++ mode ++ " " ++ limit, [])] := by
  have herr : ∀ e, Atoi limit = .error e →
      rawStatHandle query sys = rawStatRun mode limit sys := by
    intro e he
    unfold rawStatHandle
    simp only [← hmode, ← hlimit, he]
  have hok : ∀ li : Int, Atoi limit = .ok li → ¬ li > 90 →
      rawStatHandle query sys = rawStatRun mode limit sys := by
    intro li he hle
    unfold rawStatHandle
    simp only [← hmode, ← hlimit, he, if_neg hle]
  have hsmall : isNumeral limit = true → numeralValue limit ≤ 90 →
      rawStatHandle query sys = rawStatRun mode limit sys := by
    intro hn hv
    have ha := Atoi_numeral limit hn
    rw [if_pos (by omega)] at ha
    exact hok _ ha (by omega)
  refine ⟨?_, hsmall, ?_, ?_, herr, ?_, ?_, ?_⟩
  · intro hn hgt hlt
    have ha := Atoi_numeral limit hn
    rw [if_pos hlt] at ha
    have hli : ((numeralValue limit : Nat) : Int) > 90 := by omega
    unfold rawStatHandle
    simp only [← hmode, ← hlimit, ha, if_pos hli]
  · intro hn hge
    have ha := Atoi_numeral limit hn
    rw [if_neg (by omega)] at ha
    exact herr _ ha
  · intro hnd
    obtain ⟨e, he⟩ := Atoi_error_of_nondigit limit hnd
    exact herr e he
  · intro hq
    have hl : limit = "30" := by rw [hlimit, if_pos hq]
    refine ⟨hl, ?_⟩
    rw [← hl]
    exact hsmall (by rw [hl]; decide) (by rw [hl]; decide)
  · intro hq
    have hl : limit = "90" := by rw [hlimit, hq]; decide
    refine ⟨hl, ?_⟩
    rw [← hl]
    exact hsmall (by rw [hl]; decide) (by rw [hl]; decide)
  · unfold rawStatRun
    simp only
    split <;> rfl

theorem rawStatHandle_limit_witness :
    rawStatHandle (queryLimit "91") (sysConst "json")
      = ⟨httpError "error" StatusBadRequest, []⟩ ∧
    rawStatHandle (queryLimit "7") (sysConst "json") = rawStatRun "d" "7" (sysConst "json") ∧
    rawStatHandle (queryLimit "9223372036854775808") (sysConst "json")
      = rawStatRun "d" "9223372036854775808" (sysConst "json") ∧
    rawStatHandle (queryLimit "3w") (sysConst "json") = rawStatRun "d" "3w" (sysConst "json") ∧
    rawStatHandle (queryLimit "--5") (sysConst "json")
      = rawStatRun "d" "--5" (sysConst "json") ∧
    ("30" = "30" ∧
      rawStatHandle (fun _ => []) (sysConst "json") = rawStatRun "d" "30" (sysConst "json")) ∧
    ("90" = "90" ∧
      rawStatHandle (queryLimit "90") (sysConst "json")
        = rawStatRun "d" "90" (sysConst "json")) ∧
    (rawStatRun "d" "90" (sysConst "json")).calls
      = [("vnstat --json " ++ "d" ++ " " ++ "90", [])] :=
  ⟨(rawStatHandle_limit (queryLimit "91") (sysConst "json") "d" "91" (by decide)
      (by decide)).1 (by decide) (by decide) (by decide),
   (rawStatHandle_limit (queryLimit "7") (sysConst "json") "d" "7" (by decide)
      (by decide)).2.1 (by decide) (by decide),
   (rawStatHandle_limit (queryLimit "9223372036854775808") (sysConst "json") "d"
      "9223372036854775808" (by decide) (by decide)).2.2.1 (by decide) (by decide),
   (rawStatHandle_limit (queryLimit "3w") (sysConst "json") "d" "3w" (by decide)
      (by decide)).2.2.2.1 ⟨'w', by decide, by decide, by decide, by decide⟩,
   (rawStatHandle_limit (queryLimit "--5") (sysConst "json") "d" "--5" (by decide)
      (by decide)).2.2.2.2.1 .ErrSyntax (by decide),
   (rawStatHandle_limit (fun _ => []) (sysConst "json") "d" "30" (by decide)
      (by decide)).2.2.2.2.2.1 (by decide),
   (rawStatHandle_limit (queryLimit "90") (sysConst "json") "d" "90" (by decide)
      (by decide)).2.2.2.2.2.2.1 (by decide),
   (rawStatHandle_limit (queryLimit "90") (sysConst "json") "d" "90" (by decide)
      (by decide)).2.2.2.2.2.2.2⟩

end ProxyHub
